import Mathlib

/-!
Verification of the rocket-landing repository (src/bruteforce.py,
src/metaheuristic.py, src/ksp_simul.py).

The Python floats are modelled as real numbers.  The unbounded
`while True` loop of `simulate_landing` is modelled with an explicit
fuel parameter; an exit kind records whether the loop ended through the
altitude break, through the safety-time break, or merely because the
fuel ran out (the last case is an artifact of the embedding and never
happens for enough fuel, see `simulate_landing_terminates`).  The
module-global `solution_found` flag of bruteforce.py is modelled by
explicit state passing: `simulate_landing` receives the current value
of the flag and returns its new value.  The random sources of
metaheuristic.py are modelled as explicit streams of values, and the
`IndexError` raised by `random.choice` on an empty list is modelled by
`Option`.
-/

namespace RocketLanding

noncomputable section

/-- Mirror of the `RocketState` dataclass of bruteforce.py. -/
structure RocketState where
  altitude : ℝ
  velocity : ℝ
  time : ℝ

/-- Mirror of the `Trajectory` dataclass of bruteforce.py. -/
structure Trajectory where
  states : List RocketState

/-- bruteforce.py `calculate_gravity`: Newton's law with the Moon's
mass and radius baked in. -/
def calculate_gravity (altitude : ℝ) : ℝ :=
  let G : ℝ := 6.67430e-11;
  let M : ℝ := 7.34767309e22;
  let R : ℝ := 1737100;
  -G * M / ((R + altitude) ^ 2)

/-- The stopping distance computed each step of `simulate_landing`:
`-current_state.velocity**2 / (2 * (max_thrust + g))`. -/
def stepRequiredDistance (mt : ℝ) (s : RocketState) : ℝ :=
  -s.velocity ^ 2 / (2 * (mt + calculate_gravity s.altitude))

/-- The target velocity computed each step of `simulate_landing`:
`-np.sqrt((-v)**2 + 2 * -g * h) * velocity_change`. -/
def stepTargetVelocity (vc : ℝ) (s : RocketState) : ℝ :=
  -Real.sqrt ((-s.velocity) ^ 2 +
      2 * -(calculate_gravity s.altitude) * s.altitude) * vc

/-- The three-tier thrust selection of `simulate_landing`. -/
def stepThrust (vc hc mt : ℝ) (s : RocketState) : ℝ :=
  if s.altitude ≤ stepRequiredDistance mt s * hc then mt
  else if s.velocity < stepTargetVelocity vc s then mt * 0.8
  else 0

/-- The net acceleration of one step of `simulate_landing`, including
the overshoot guard that recomputes it from the sign of the velocity
error when the next velocity would be positive. -/
def stepAcceleration (vc hc dt mt : ℝ) (s : RocketState) : ℝ :=
  let g := calculate_gravity s.altitude;
  let thrust := stepThrust vc hc mt s;
  let acc := thrust + g;
  if s.velocity + acc * dt > 0 then
    g + thrust * ((stepTargetVelocity vc s - s.velocity) /
      |stepTargetVelocity vc s - s.velocity|)
  else acc

/-- The (possibly rescaled) maximum thrust carried to the next step of
`simulate_landing`: inside the overshoot guard the code executes
`max_thrust = max_thrust / -g`. -/
def stepMaxThrust (vc hc dt mt : ℝ) (s : RocketState) : ℝ :=
  let g := calculate_gravity s.altitude;
  if s.velocity + (stepThrust vc hc mt s + g) * dt > 0 then mt / -g
  else mt

/-- The new state produced by one iteration of the `simulate_landing`
loop: `v' = v + a*dt`, `h' = h + v'*dt`, `t' = t + dt`. -/
def stepState (vc hc dt mt : ℝ) (s : RocketState) : RocketState :=
  let v := s.velocity + stepAcceleration vc hc dt mt s * dt;
  ⟨s.altitude + v * dt, v, s.time + dt⟩

/-- How a run of `simulate_landing` ended: through the altitude break
(`landed`), through the safety-time break (`safety`), or because the
modelling fuel ran out (`fuelOut`, an artifact of the embedding). -/
inductive ExitKind where
  | landed : ExitKind
  | safety : ExitKind
  | fuelOut : ExitKind
deriving DecidableEq

/-- The value returned by a run of `simulate_landing`: the trajectory
(the only value Python returns), the value of the global
`solution_found` flag after the run, and how the loop ended. -/
structure SimOut where
  trajectory : Trajectory
  found : Bool
  exit : ExitKind

/-- The `while True` loop of `simulate_landing`.  One iteration first
checks `altitude <= 0` (setting the global flag and breaking), then
computes and appends the next state, then checks the safety break
`time > 1000` (which does not touch the flag). -/
def simLoop (vc hc dt : ℝ) : ℕ → ℝ → RocketState → List RocketState → Bool → SimOut
  | 0, _, _, acc, flag => ⟨⟨acc⟩, flag, ExitKind.fuelOut⟩
  | fuel + 1, mt, s, acc, flag =>
    if s.altitude ≤ 0 then ⟨⟨acc⟩, true, ExitKind.landed⟩
    else
      let s2 := stepState vc hc dt mt s;
      let acc2 := acc ++ [s2];
      if s2.time > 1000 then ⟨⟨acc2⟩, flag, ExitKind.safety⟩
      else simLoop vc hc dt fuel (stepMaxThrust vc hc dt mt s) s2 acc2 flag

/-- bruteforce.py `simulate_landing`.  The `tolerance` parameter is
accepted and, exactly as in the source, never used.  `flag` is the
incoming value of the global `solution_found`; `fuel` bounds the number
of loop iterations of the embedding. -/
def simulate_landing (initialHeight initialVelocity rocketMass maxThrustNewtons
    tolerance dt vc hc : ℝ) (flag : Bool) (fuel : ℕ) : SimOut :=
  simLoop vc hc dt fuel (maxThrustNewtons / rocketMass)
    ⟨initialHeight, initialVelocity, 0⟩ [⟨initialHeight, initialVelocity, 0⟩] flag

/-- The list of states of a `simulate_landing` run (the value the
Python function returns). -/
def simStates (initialHeight initialVelocity rocketMass maxThrustNewtons
    tolerance dt vc hc : ℝ) (flag : Bool) (fuel : ℕ) : List RocketState :=
  (simulate_landing initialHeight initialVelocity rocketMass maxThrustNewtons
    tolerance dt vc hc flag fuel).trajectory.states

/-- bruteforce.py `calculate_landing_cost`: cost of the final state,
`time + 2 * abs(velocity)`. -/
def calculate_landing_cost (t : Trajectory) : ℝ :=
  let fs := t.states.getLastD ⟨0, 0, 0⟩;
  fs.time + 2 * |fs.velocity|

/-! ## The grid search of the `__main__` block of bruteforce.py -/

/-- Enough fuel for any run with `dt = 0.05`: the loop provably breaks
within `1000 / 0.05 + 1 = 20001` iterations. -/
def mainFuel : ℕ := 20001

/-- One simulation of the `__main__` grid search of bruteforce.py:
`initial_height=100, initial_velocity=-50, rocket_mass=1000,
max_thrust_newtons=20000, tolerance=0.5, dt=0.05`. -/
def mainSimulate (vc hc : ℝ) (flag : Bool) : SimOut :=
  simulate_landing 100 (-50) 1000 20000 0.5 0.05 vc hc flag mainFuel

/-- Cost of one grid cell of the `__main__` grid search. -/
def costOf (p : ℝ × ℝ) : ℝ :=
  calculate_landing_cost (mainSimulate p.1 p.2 false).trajectory

/-- The mutable state of the `__main__` grid-search loop of
bruteforce.py (including the module-global `solution_found`). -/
structure GridState where
  minCost : ℝ
  solutionTrajectory : Option Trajectory
  solutionAttempt : ℤ
  optimalDv : ℝ
  optimalDh : ℝ
  attempt : ℕ
  found : Bool

/-- Initial grid-search state: `min_cost = -1.0`,
`solution_trajectory = None`, `solution_attempt = -1`,
`optimal_dv = optimal_dh = -1.0`, `attempt = 0`,
`solution_found = False`. -/
def gridInit : GridState := ⟨-1, none, -1, -1, -1, 0, false⟩

/-- One iteration of the `__main__` grid-search loop: simulate the
cell, compute its cost, keep it if `min_cost == -1.0` (first cell) or
if the cost is strictly below the running minimum, and advance the
attempt counter. -/
def gridUpdate (st : GridState) (p : ℝ × ℝ) : GridState :=
  let out := mainSimulate p.1 p.2 st.found;
  let c := calculate_landing_cost out.trajectory;
  if st.minCost = -1 then
    ⟨c, some out.trajectory, (st.attempt : ℤ), p.1, p.2, st.attempt + 1, out.found⟩
  else if c < st.minCost then
    ⟨c, some out.trajectory, (st.attempt : ℤ), p.1, p.2, st.attempt + 1, out.found⟩
  else
    ⟨st.minCost, st.solutionTrajectory, st.solutionAttempt, st.optimalDv,
      st.optimalDh, st.attempt + 1, out.found⟩

/-- The row-major iteration order of the two nested `for` loops of the
grid search: `velocity_change` outer, `height_change` inner. -/
def gridCells (vcs hcs : List ℝ) : List (ℝ × ℝ) :=
  vcs.flatMap (fun vc => hcs.map (fun hc => (vc, hc)))

/-- The whole grid-search loop over the given coefficient samples. -/
def gridSearch (vcs hcs : List ℝ) : GridState :=
  (gridCells vcs hcs).foldl gridUpdate gridInit

/-- The loop invariant of the grid search after having processed the
cells in `done` (in order): the attempt counter equals the number of
processed cells, and once at least one cell has been processed the
kept solution attains the running minimum, every processed cell costs
at least the running minimum, and every cell strictly before the kept
one costs strictly more (first-occurrence tie-break). -/
def gridInv (done : List (ℝ × ℝ)) (st : GridState) : Prop :=
  st.attempt = done.length ∧
  (done = [] → st = gridInit) ∧
  (done ≠ [] →
    0 ≤ st.minCost ∧
    0 ≤ st.solutionAttempt ∧
    st.solutionAttempt < (done.length : ℤ) ∧
    costOf (st.optimalDv, st.optimalDh) = st.minCost ∧
    (∀ p ∈ done, st.minCost ≤ costOf p) ∧
    (∀ j : ℕ, ∀ hj : j < done.length, (j : ℤ) < st.solutionAttempt →
      st.minCost < costOf (done.get ⟨j, hj⟩)) ∧
    (∀ hsa : st.solutionAttempt.toNat < done.length,
      done.get ⟨st.solutionAttempt.toNat, hsa⟩ = (st.optimalDv, st.optimalDh)))

/-! ## A state reaching the overshoot guard with zero velocity error -/

/-- The initial state `initial_height = 100`, `initial_velocity = 10`
(ascending) of a run that reaches the overshoot guard with
`velocity_error == 0` on its very first step. -/
def degenState : RocketState := ⟨100, 10, 0⟩

/-- A `velocity_change` coefficient chosen so that the target velocity
at `degenState` is exactly the current velocity 10 (out of the nominal
`[0, 1]` domain, but nothing clamps the coefficient — the
metaheuristic's unclamped mutation can drift below 0). -/
def degenVc : ℝ :=
  -10 / Real.sqrt ((-(10 : ℝ)) ^ 2 + 2 * -(calculate_gravity 100) * 100)

/-! ## The genetic algorithm of metaheuristic.py -/

/-- An individual of the genetic algorithm: the pair
`(velocity_change, height_change)`. -/
abbrev Individual := ℝ × ℝ

/-- The scenario parameters passed to `genetic_algorithm` (plus the
fuel used by the embedded simulator). -/
structure GAConfig where
  initialHeight : ℝ
  initialVelocity : ℝ
  rocketMass : ℝ
  maxThrustNewtons : ℝ
  dt : ℝ
  fuel : ℕ

/-- The random sources used by metaheuristic.py, as explicit streams:
`init` for the initial population (`np.random.uniform` pairs), `pick`
for the two `random.choice` calls of one reproduction step, `coin` for
the `random.random() < 0.1` mutation test, `mut` for the two
`np.random.uniform(-0.1, 0.1)` perturbations. -/
structure GARand where
  init : ℕ → ℝ × ℝ
  pick : ℕ → ℕ × ℕ
  coin : ℕ → ℝ
  perturb : ℕ → ℝ × ℝ

/-- The evaluation of one individual inside `genetic_algorithm`: the
trajectory of `simulate_landing(...)` with tolerance `0.5`. -/
def gaTrajectory (cfg : GAConfig) (ind : Individual) : Trajectory :=
  (simulate_landing cfg.initialHeight cfg.initialVelocity cfg.rocketMass
    cfg.maxThrustNewtons 0.5 cfg.dt ind.1 ind.2 false cfg.fuel).trajectory

/-- `random.choice(l)` of Python: a uniform pick, modelled by indexing
with a stream value; on an empty list Python raises `IndexError`,
modelled by `none`. -/
def choiceFn (l : List Individual) (k : ℕ) : Option Individual :=
  l[k % l.length]?

/-- The evolving state of `genetic_algorithm`: the population, the
tracked globally best cost (`float('inf')` initially, hence
`WithTop ℝ`), the trajectory of the best solution, and the position in
the random streams. -/
structure GAState where
  population : List Individual
  bestCost : WithTop ℝ
  bestSolution : Option Trajectory
  k : ℕ

/-- One child of the reproduction loop: the arithmetic mean of the two
parents on each gene, perturbed by `Uniform(-0.1, 0.1)` on each gene
when the mutation coin (`random.random() < 0.1`) fires. -/
def gaChild (rnd : GARand) (k : ℕ) (father mother : Individual) : Individual :=
  let child : Individual :=
    ((father.1 + mother.1) / 2, (father.2 + mother.2) / 2);
  if rnd.coin k < 0.1 then
    (child.1 + (rnd.perturb k).1, child.2 + (rnd.perturb k).2)
  else child

/-- The `while len(new_population) < initial_population` reproduction
loop: pick two parents with `random.choice`, average them, mutate with
probability 0.1.  `n` is the number of children still needed; `none`
models the `IndexError` of `random.choice` on an empty list. -/
def reproduce (rnd : GARand) : ℕ → List Individual → List Individual → ℕ →
    Option (List Individual × ℕ)
  | 0, _, cur, k => some (cur, k)
  | n + 1, parents, cur, k =>
    (choiceFn parents (rnd.pick k).1).bind (fun father =>
      (choiceFn parents (rnd.pick k).2).bind (fun mother =>
        reproduce rnd n parents (cur ++ [gaChild rnd k father mother]) (k + 1)))

/-- The `evaluations` list of one generation: each individual together
with its landing cost and trajectory. -/
def gaEvaluations (cfg : GAConfig) (pop : List Individual) :
    List (Individual × ℝ × Trajectory) :=
  pop.map (fun ind =>
    (ind, calculate_landing_cost (gaTrajectory cfg ind), gaTrajectory cfg ind))

/-- `evaluations.sort(key=lambda x: x[1])`: the evaluations sorted
ascending by cost (a stable sort, like Python's). -/
def gaSorted (cfg : GAConfig) (pop : List Individual) :
    List (Individual × ℝ × Trajectory) :=
  (gaEvaluations cfg pop).mergeSort (fun a b => decide (a.2.1 ≤ b.2.1))

/-- The truncation selection `[x[0] for x in evaluations[:len(population)//2]]`. -/
def gaSurvivors (cfg : GAConfig) (pop : List Individual) : List Individual :=
  ((gaSorted cfg pop).take (pop.length / 2)).map (fun x => x.1)

/-- One generation of `genetic_algorithm`: evaluate every individual,
sort ascending by cost, read the generation's best (`evaluations[0]`,
an `IndexError` on an empty population, hence `Option`), update the
globally best cost only on a strict improvement, keep the top half,
and refill the population by reproduction. -/
def gaGeneration (cfg : GAConfig) (rnd : GARand) (popSize : ℕ) (s : GAState) :
    Option GAState :=
  (gaSorted cfg s.population).head?.bind (fun bestGen =>
    (reproduce rnd (popSize - (gaSurvivors cfg s.population).length)
        (gaSurvivors cfg s.population) (gaSurvivors cfg s.population) s.k).map
      (fun r =>
        ⟨r.1,
         if (bestGen.2.1 : WithTop ℝ) < s.bestCost then (bestGen.2.1 : WithTop ℝ)
         else s.bestCost,
         if (bestGen.2.1 : WithTop ℝ) < s.bestCost then some bestGen.2.2
         else s.bestSolution,
         r.2⟩))

/-- `g` generations of `genetic_algorithm`, threading the state; the
result after `g + 1` generations is one `gaGeneration` applied to the
result after `g` generations. -/
def gaRun (cfg : GAConfig) (rnd : GARand) (popSize : ℕ) : ℕ → GAState →
    Option GAState
  | 0, s => some s
  | g + 1, s => (gaRun cfg rnd popSize g s).bind (gaGeneration cfg rnd popSize)

/-- metaheuristic.py `genetic_algorithm`: random initial population of
`initialPopulation` individuals, `generations` generations, returning
`(best_solution, best_cost)`; `none` models a run that raises instead
of returning. -/
def genetic_algorithm (cfg : GAConfig) (rnd : GARand)
    (initialPopulation generations : ℕ) :
    Option (Option Trajectory × WithTop ℝ) :=
  let pop0 := (List.range initialPopulation).map rnd.init;
  (gaRun cfg rnd initialPopulation generations ⟨pop0, ⊤, none, 0⟩).map
    (fun s => (s.bestSolution, s.bestCost))

/-- A concrete scenario configuration (the one of the `__main__`
blocks) used for witnesses. -/
def gaDemoConfig : GAConfig := ⟨100, -50, 1000, 20000, 0.05, 20001⟩

/-- Concrete deterministic random streams used for witnesses. -/
def gaDemoRand : GARand :=
  ⟨fun _ => (0.5, 1.5), fun _ => (0, 0), fun _ => 1, fun _ => (0, 0)⟩

/-- A concrete two-individual genetic-algorithm state used for
witnesses. -/
def gaDemoState : GAState := ⟨[(0.5, 1.5), (0.3, 1.2)], ⊤, none, 0⟩

/-! ## Helper lemmas about the simulator loop -/

theorem stepState_time (vc hc dt mt : ℝ) (s : RocketState) :
    (stepState vc hc dt mt s).time = s.time + dt := rfl

theorem simLoop_zero (vc hc dt mt : ℝ) (s : RocketState)
    (acc : List RocketState) (flag : Bool) :
    simLoop vc hc dt 0 mt s acc flag = ⟨⟨acc⟩, flag, ExitKind.fuelOut⟩ := rfl

theorem simLoop_succ (vc hc dt mt : ℝ) (fuel : ℕ) (s : RocketState)
    (acc : List RocketState) (flag : Bool) :
    simLoop vc hc dt (fuel + 1) mt s acc flag =
      if s.altitude ≤ 0 then ⟨⟨acc⟩, true, ExitKind.landed⟩
      else if (stepState vc hc dt mt s).time > 1000 then
        ⟨⟨acc ++ [stepState vc hc dt mt s]⟩, flag, ExitKind.safety⟩
      else simLoop vc hc dt fuel (stepMaxThrust vc hc dt mt s)
        (stepState vc hc dt mt s) (acc ++ [stepState vc hc dt mt s]) flag := rfl

theorem simLoop_flag_trajectory (vc hc dt : ℝ) : ∀ (fuel : ℕ) (mt : ℝ)
    (s : RocketState) (acc : List RocketState) (f1 f2 : Bool),
    (simLoop vc hc dt fuel mt s acc f1).trajectory =
      (simLoop vc hc dt fuel mt s acc f2).trajectory ∧
    (simLoop vc hc dt fuel mt s acc f1).exit =
      (simLoop vc hc dt fuel mt s acc f2).exit := by
  intro fuel
  induction fuel with
  | zero => intro mt s acc f1 f2; simp [simLoop_zero]
  | succ n ih =>
    intro mt s acc f1 f2
    rw [simLoop_succ, simLoop_succ]
    split
    · exact ⟨rfl, rfl⟩
    · split
      · exact ⟨rfl, rfl⟩
      · exact ih _ _ _ f1 f2

theorem simLoop_length_mono (vc hc dt : ℝ) : ∀ (fuel : ℕ) (mt : ℝ)
    (s : RocketState) (acc : List RocketState) (flag : Bool),
    acc.length ≤ (simLoop vc hc dt fuel mt s acc flag).trajectory.states.length := by
  intro fuel
  induction fuel with
  | zero => intro mt s acc flag; simp [simLoop_zero]
  | succ n ih =>
    intro mt s acc flag
    rw [simLoop_succ]
    split
    · simp
    · split
      · simp
      · exact le_trans (by simp) (ih _ _ _ flag)

theorem simLoop_length_step (vc hc dt : ℝ) (fuel : ℕ) (mt : ℝ)
    (s : RocketState) (acc : List RocketState) (flag : Bool)
    (hfuel : 0 < fuel) (halt : 0 < s.altitude) :
    acc.length + 1 ≤ (simLoop vc hc dt fuel mt s acc flag).trajectory.states.length := by
  obtain ⟨n, rfl⟩ : ∃ n, fuel = n + 1 := ⟨fuel - 1, by omega⟩
  rw [simLoop_succ, if_neg (by linarith)]
  split
  · simp
  · exact le_trans (by simp) (simLoop_length_mono vc hc dt n _ _ _ flag)

theorem simLoop_time_nonneg (vc hc dt : ℝ) (hdt : 0 ≤ dt) : ∀ (fuel : ℕ)
    (mt : ℝ) (s : RocketState) (acc : List RocketState) (flag : Bool),
    0 ≤ s.time → (∀ x ∈ acc, 0 ≤ x.time) →
    ∀ x ∈ (simLoop vc hc dt fuel mt s acc flag).trajectory.states, 0 ≤ x.time := by
  intro fuel
  induction fuel with
  | zero => intro mt s acc flag _ hacc; simpa [simLoop_zero] using hacc
  | succ n ih =>
    intro mt s acc flag hs hacc
    rw [simLoop_succ]
    have hs2 : 0 ≤ (stepState vc hc dt mt s).time := by
      rw [stepState_time]; linarith
    have hacc2 : ∀ x ∈ acc ++ [stepState vc hc dt mt s], 0 ≤ x.time := by
      intro x hx
      rcases List.mem_append.mp hx with h | h
      · exact hacc x h
      · rcases List.mem_singleton.mp h with rfl; exact hs2
    split
    · simpa using hacc
    · split
      · simpa using hacc2
      · exact ih _ _ _ flag hs2 hacc2

theorem simLoop_terminates (vc hc dt : ℝ) (hdt : 0 < dt) : ∀ (fuel : ℕ)
    (mt : ℝ) (s : RocketState) (acc : List RocketState) (flag : Bool),
    s.time ≤ 1000 → 1000 < s.time + fuel * dt →
    (simLoop vc hc dt fuel mt s acc flag).exit ≠ ExitKind.fuelOut := by
  intro fuel
  induction fuel with
  | zero =>
    intro mt s acc flag hle hgt
    exfalso
    simp only [Nat.cast_zero, zero_mul, add_zero] at hgt
    linarith
  | succ n ih =>
    intro mt s acc flag hle hgt
    rw [simLoop_succ]
    split
    · simp
    · split
      · simp
      · rename_i hnotsafety
        have hst : (stepState vc hc dt mt s).time = s.time + dt := stepState_time ..
        refine ih _ _ _ flag ?_ ?_
        · rw [hst]; linarith [not_lt.mp hnotsafety]
        · rw [hst]
          push_cast at hgt ⊢
          linarith

theorem simLoop_found_eq (vc hc dt : ℝ) : ∀ (fuel : ℕ) (mt : ℝ)
    (s : RocketState) (acc : List RocketState) (flag : Bool),
    (simLoop vc hc dt fuel mt s acc flag).found =
      (flag || decide ((simLoop vc hc dt fuel mt s acc flag).exit = ExitKind.landed)) := by
  intro fuel
  induction fuel with
  | zero => intro mt s acc flag; simp [simLoop_zero]
  | succ n ih =>
    intro mt s acc flag
    rw [simLoop_succ]
    split
    · simp
    · split
      · simp
      · exact ih _ _ _ flag

theorem simLoop_chain (vc hc dt : ℝ) : ∀ (fuel : ℕ) (mt : ℝ)
    (s : RocketState) (acc : List RocketState) (flag : Bool),
    acc ≠ [] → acc.getLast? = some s →
    List.Chain' (fun a b => b.time = a.time + dt) acc →
    (simLoop vc hc dt fuel mt s acc flag).trajectory.states ≠ [] ∧
    (simLoop vc hc dt fuel mt s acc flag).trajectory.states.head? = acc.head? ∧
    List.Chain' (fun a b => b.time = a.time + dt)
      (simLoop vc hc dt fuel mt s acc flag).trajectory.states := by
  intro fuel
  induction fuel with
  | zero =>
    intro mt s acc flag hne _ hchain
    exact ⟨hne, rfl, hchain⟩
  | succ n ih =>
    intro mt s acc flag hne hlast hchain
    rw [simLoop_succ]
    split
    · exact ⟨hne, rfl, hchain⟩
    · have hne2 : acc ++ [stepState vc hc dt mt s] ≠ [] := by simp
      have hlast2 : (acc ++ [stepState vc hc dt mt s]).getLast? =
          some (stepState vc hc dt mt s) := List.getLast?_concat acc
      have hchain2 : List.Chain' (fun a b => b.time = a.time + dt)
          (acc ++ [stepState vc hc dt mt s]) := by
        rw [List.chain'_append]
        refine ⟨hchain, List.chain'_singleton _, ?_⟩
        intro x hx y hy
        simp only [List.head?_cons, Option.mem_def, Option.some.injEq] at hy
        rw [hlast] at hx
        simp only [Option.mem_def, Option.some.injEq] at hx
        subst hx; subst hy
        exact stepState_time ..
      have hhead2 : (acc ++ [stepState vc hc dt mt s]).head? = acc.head? := by
        cases acc with
        | nil => exact absurd rfl hne
        | cons a t => simp
      split
      · exact ⟨hne2, hhead2, hchain2⟩
      · obtain ⟨r1, r2, r3⟩ := ih _ _ _ flag hne2 hlast2 hchain2
        exact ⟨r1, r2.trans hhead2, r3⟩

theorem getD_eq_get (l : List RocketState) (d : RocketState) (i : ℕ)
    (h : i < l.length) : l.getD i d = l.get ⟨i, h⟩ := by
  rw [List.getD_eq_getElem?_getD, List.getElem?_eq_getElem h]
  rfl

theorem getLastD_mem (l : List RocketState) (d : RocketState) (h : l ≠ []) :
    l.getLastD d ∈ l := by
  rw [List.getLastD_eq_getLast?, List.getLast?_eq_getLast l h]
  exact List.getLast_mem h

/-! ## C1 -/

/-- C1 counterexample: the configuration `initial_height = 100`,
`initial_velocity = -50`, `rocket_mass = 1000`,
`max_thrust_newtons = 20000`, `dt = 1001`, `velocity_change = 0`,
`height_change = 1.5` satisfies all the claim's hypotheses
(`max_thrust / mass > |g|`, `initial_height > 0`, `dt > 0`), yet the
run ends through the safety-time break with the landed flag unset. -/
theorem C1_counterexample :
    (20000 : ℝ) / 1000 > |calculate_gravity 100| ∧ (100 : ℝ) > 0 ∧ (1001 : ℝ) > 0 ∧
    (simulate_landing 100 (-50) 1000 20000 0.5 1001 0 1.5 false 1).exit =
      ExitKind.safety ∧
    (simulate_landing 100 (-50) 1000 20000 0.5 1001 0 1.5 false 1).found = false := by
  have hg : calculate_gravity 100 < 0 := by norm_num [calculate_gravity]
  refine ⟨?_, by norm_num, by norm_num, ?_, ?_⟩
  · rw [abs_of_neg hg]; norm_num [calculate_gravity]
  all_goals
    rw [simulate_landing, show (1 : ℕ) = 0 + 1 from rfl, simLoop_succ,
      if_neg (by norm_num), if_pos (by rw [stepState_time]; norm_num)]

/-- C1 (amended): for every configuration with `dt > 0`,
`simulate_landing` breaks out of its loop within
`⌊1000 / dt⌋ + 1` integration steps (through the altitude break or the
safety break); ending in the `Landed` state is not guaranteed. -/
theorem simulate_landing_terminates (h0 v0 m th tol vc hc : ℝ) (flag : Bool)
    (dt : ℝ) (hdt : 0 < dt) :
    (simulate_landing h0 v0 m th tol dt vc hc flag (⌊(1000 : ℝ) / dt⌋₊ + 1)).exit ≠
      ExitKind.fuelOut := by
  rw [simulate_landing]
  refine simLoop_terminates vc hc dt hdt _ _ _ _ flag (by norm_num) ?_
  have h1 : (1000 : ℝ) / dt < ⌊(1000 : ℝ) / dt⌋₊ + 1 := Nat.lt_floor_add_one _
  have h2 : (1000 : ℝ) = 1000 / dt * dt := by field_simp
  push_cast
  calc (1000 : ℝ) = 1000 / dt * dt := h2
    _ < (⌊(1000 : ℝ) / dt⌋₊ + 1) * dt := by
        exact mul_lt_mul_of_pos_right h1 hdt
    _ = (0 : ℝ) + (⌊(1000 : ℝ) / dt⌋₊ + 1) * dt := by ring

/-- C1 witness: the termination bound applied at a concrete
configuration with `dt = 1`. -/
theorem simulate_landing_terminates_witness :
    (0 : ℝ) < 1 ∧
    (simulate_landing 100 (-50) 1000 20000 0.5 1 0 1.5 false
      (⌊(1000 : ℝ) / 1⌋₊ + 1)).exit ≠ ExitKind.fuelOut :=
  ⟨by norm_num,
   simulate_landing_terminates 100 (-50) 1000 20000 0.5 0 1.5 false 1 (by norm_num)⟩

/-! ## C2 -/

/-- C2 counterexample: a run that terminates through the safety time
limit with the global `solution_found` flag already `true` returns the
flag `true`, not `false` as the claim requires — because the status is
the shared flag, left unchanged by the safety break, not a per-run
returned field. -/
theorem C2_counterexample :
    (simulate_landing 100 (-50) 1000 20000 0.5 1001 0 1.5 true 1).exit =
      ExitKind.safety ∧
    (simulate_landing 100 (-50) 1000 20000 0.5 1001 0 1.5 true 1).found = true := by
  constructor
  all_goals
    rw [simulate_landing, show (1 : ℕ) = 0 + 1 from rfl, simLoop_succ,
      if_neg (by norm_num), if_pos (by rw [stepState_time]; norm_num)]

/-- C2 (amended): `simulate_landing` communicates its landing status
through the shared `solution_found` flag (modelled as an explicit
in/out value): the returned flag is the incoming flag OR-ed with
whether the run ended through the altitude-`≤ 0` break; in particular a
safety-limit termination returns the flag unchanged — it is `false`
after such a run only if it was `false` before. -/
theorem simulate_landing_found (h0 v0 m th tol dt vc hc : ℝ) (flag : Bool)
    (fuel : ℕ) :
    (simulate_landing h0 v0 m th tol dt vc hc flag fuel).found =
      (flag || decide ((simulate_landing h0 v0 m th tol dt vc hc flag fuel).exit =
        ExitKind.landed)) := by
  rw [simulate_landing]
  exact simLoop_found_eq vc hc dt fuel _ _ _ flag

/-! ## C6 -/

/-- C6: with `max_thrust_newtons = 0` the simulator does **not** abort
immediately: starting from `initial_height = 100 > 0` it integrates
unpowered free fall and the returned trajectory has at least one state
beyond the initial one (the claim demands zero steps beyond the initial
state and a distinct `Unpowered` outcome, which the code does not
have). -/
theorem C6_zero_thrust_steps :
    2 ≤ (simulate_landing 100 (-50) 1000 0 0.5 0.05 0.5 1.5 false
      mainFuel).trajectory.states.length := by
  rw [simulate_landing]
  have := simLoop_length_step 0.5 1.5 0.05 mainFuel (0 / 1000)
    ⟨100, -50, 0⟩ [⟨100, -50, 0⟩] false (by norm_num [mainFuel]) (by norm_num)
  simpa using this

/-! ## C7 -/

/-- C7: every trajectory returned by `simulate_landing` is non-empty,
its first state has time 0, consecutive states differ in time by
exactly `dt`, and for `dt > 0` the times are strictly increasing. -/
theorem simulate_landing_times (h0 v0 m th tol dt vc hc : ℝ) (flag : Bool)
    (fuel : ℕ) :
    simStates h0 v0 m th tol dt vc hc flag fuel ≠ [] ∧
    ((simStates h0 v0 m th tol dt vc hc flag fuel).getD 0 ⟨0, 0, 0⟩).time = 0 ∧
    (∀ i, i + 1 < (simStates h0 v0 m th tol dt vc hc flag fuel).length →
      ((simStates h0 v0 m th tol dt vc hc flag fuel).getD (i + 1) ⟨0, 0, 0⟩).time =
        ((simStates h0 v0 m th tol dt vc hc flag fuel).getD i ⟨0, 0, 0⟩).time + dt) ∧
    (0 < dt → ∀ i, i + 1 < (simStates h0 v0 m th tol dt vc hc flag fuel).length →
      ((simStates h0 v0 m th tol dt vc hc flag fuel).getD i ⟨0, 0, 0⟩).time <
        ((simStates h0 v0 m th tol dt vc hc flag fuel).getD (i + 1) ⟨0, 0, 0⟩).time) := by
  have key := simLoop_chain vc hc dt fuel (th / m) ⟨h0, v0, 0⟩
    [⟨h0, v0, 0⟩] flag (by simp) (by simp) (List.chain'_singleton _)
  obtain ⟨hne, hhead, hchain⟩ := key
  have hstates : simStates h0 v0 m th tol dt vc hc flag fuel =
      (simLoop vc hc dt fuel (th / m) ⟨h0, v0, 0⟩ [⟨h0, v0, 0⟩] flag).trajectory.states := rfl
  rw [hstates]
  set l := (simLoop vc hc dt fuel (th / m) ⟨h0, v0, 0⟩ [⟨h0, v0, 0⟩] flag).trajectory.states with hl
  have hdiff : ∀ i, i + 1 < l.length →
      (l.getD (i + 1) ⟨0, 0, 0⟩).time = (l.getD i ⟨0, 0, 0⟩).time + dt := by
    intro i hi
    have h1 : i < l.length := by omega
    have h0' : i < l.length - 1 := by omega
    rw [getD_eq_get l _ _ hi, getD_eq_get l _ _ h1]
    exact List.chain'_iff_get.mp hchain i h0'
  refine ⟨hne, ?_, hdiff, ?_⟩
  · cases hcase : l with
    | nil => exact absurd hcase hne
    | cons a t =>
      rw [hcase] at hhead
      simp only [List.head?_cons, List.head?_cons, Option.some.injEq] at hhead
      simp [hcase, hhead]
  · intro hdt i hi
    have := hdiff i hi
    linarith [this]

/-- C7 witness: the consecutive-time property applied to a concrete
run with `dt = 1` whose trajectory provably has at least two states. -/
theorem simulate_landing_times_witness :
    0 + 1 < (simStates 100 (-50) 1000 20000 0.5 1 0.5 1.5 false 1).length ∧
    ((simStates 100 (-50) 1000 20000 0.5 1 0.5 1.5 false 1).getD 1 ⟨0, 0, 0⟩).time =
      ((simStates 100 (-50) 1000 20000 0.5 1 0.5 1.5 false 1).getD 0 ⟨0, 0, 0⟩).time + 1 := by
  have hlen : 0 + 1 < (simStates 100 (-50) 1000 20000 0.5 1 0.5 1.5 false 1).length := by
    have := simLoop_length_step 0.5 1.5 1 1 (20000 / 1000)
      ⟨100, -50, 0⟩ [⟨100, -50, 0⟩] false (by norm_num) (by norm_num)
    simpa [simStates, simulate_landing] using this
  exact ⟨hlen,
    (simulate_landing_times 100 (-50) 1000 20000 0.5 1 0.5 1.5 false 1).2.2.1 0 hlen⟩

/-! ## Helper lemmas for the grid search -/

theorem mainSimulate_trajectory_flag (vc hc : ℝ) (f : Bool) :
    (mainSimulate vc hc f).trajectory = (mainSimulate vc hc false).trajectory := by
  rw [mainSimulate, mainSimulate, simulate_landing, simulate_landing]
  exact (simLoop_flag_trajectory vc hc 0.05 mainFuel _ _ _ f false).1

theorem cost_flag (vc hc : ℝ) (f : Bool) :
    calculate_landing_cost (mainSimulate vc hc f).trajectory = costOf (vc, hc) := by
  rw [costOf, mainSimulate_trajectory_flag]

theorem cost_flag_pair (p : ℝ × ℝ) (f : Bool) :
    calculate_landing_cost (mainSimulate p.1 p.2 f).trajectory = costOf p := by
  rw [cost_flag, Prod.mk.eta]

theorem mainSimulate_states_ne_nil (vc hc : ℝ) (f : Bool) :
    (mainSimulate vc hc f).trajectory.states ≠ [] := by
  rw [mainSimulate, simulate_landing]
  have := simLoop_length_mono vc hc 0.05 mainFuel (20000 / 1000)
    ⟨100, -50, 0⟩ [⟨100, -50, 0⟩] f
  simp only [List.length_singleton] at this
  exact List.ne_nil_of_length_pos (by omega)

theorem costOf_nonneg (p : ℝ × ℝ) : 0 ≤ costOf p := by
  rw [costOf, calculate_landing_cost]
  have hne := mainSimulate_states_ne_nil p.1 p.2 false
  have hmem := getLastD_mem (mainSimulate p.1 p.2 false).trajectory.states
    ⟨0, 0, 0⟩ hne
  have htime := simLoop_time_nonneg p.1 p.2 0.05 (by norm_num) mainFuel
    (20000 / 1000) ⟨100, -50, 0⟩ [⟨100, -50, 0⟩] false (le_refl 0)
    (by intro x hx; rcases List.mem_singleton.mp hx with rfl; exact le_refl 0)
  have h0 : 0 ≤ ((mainSimulate p.1 p.2 false).trajectory.states.getLastD
      ⟨0, 0, 0⟩).time := by
    refine htime _ ?_
    rw [mainSimulate, simulate_landing] at hmem
    exact hmem
  have h1 : 0 ≤ 2 * |((mainSimulate p.1 p.2 false).trajectory.states.getLastD
      ⟨0, 0, 0⟩).velocity| := by positivity
  show 0 ≤ ((mainSimulate p.1 p.2 false).trajectory.states.getLastD
      ⟨0, 0, 0⟩).time + 2 * |((mainSimulate p.1 p.2 false).trajectory.states.getLastD
      ⟨0, 0, 0⟩).velocity|
  linarith

theorem costOf_ne_neg_one (p : ℝ × ℝ) : costOf p ≠ -1 := by
  have := costOf_nonneg p
  intro h
  rw [h] at this
  linarith

theorem gridInv_init : gridInv [] gridInit :=
  ⟨rfl, fun _ => rfl, fun h => absurd rfl h⟩

theorem gridInv_take (done : List (ℝ × ℝ)) (p : ℝ × ℝ) (tr : Option Trajectory)
    (fnd : Bool) (hall : ∀ q ∈ done, costOf p < costOf q) :
    gridInv (done ++ [p])
      ⟨costOf p, tr, (done.length : ℤ), p.1, p.2, done.length + 1, fnd⟩ := by
  refine ⟨?_, ?_, fun _ => ⟨?_, ?_, ?_, ?_, ?_, ?_, ?_⟩⟩
  · show done.length + 1 = (done ++ [p]).length
    simp
  · exact fun hc => absurd hc (by simp)
  · exact costOf_nonneg p
  · show (0 : ℤ) ≤ (done.length : ℤ)
    positivity
  · show (done.length : ℤ) < ((done ++ [p]).length : ℤ)
    simp
  · show costOf (p.1, p.2) = costOf p
    rw [Prod.mk.eta]
  · intro q hq
    show costOf p ≤ costOf q
    rcases List.mem_append.mp hq with hq | hq
    · exact le_of_lt (hall q hq)
    · rcases List.mem_singleton.mp hq with rfl
      exact le_refl _
  · intro j hj hjlt
    have hjlt2 : (j : ℤ) < (done.length : ℤ) := hjlt
    have hjd : j < done.length := by exact_mod_cast hjlt2
    show costOf p < costOf ((done ++ [p]).get ⟨j, hj⟩)
    have hg : (done ++ [p]).get ⟨j, hj⟩ = done.get ⟨j, hjd⟩ := by
      rw [List.get_eq_getElem, List.get_eq_getElem]
      exact List.getElem_append_left hjd
    rw [hg]
    exact hall _ (List.get_mem done j hjd)
  · intro hsa
    have htn : ((done.length : ℤ)).toNat = done.length := by omega
    show (done ++ [p]).get ⟨((done.length : ℤ)).toNat, hsa⟩ = (p.1, p.2)
    rw [List.get_eq_getElem]
    have hg := List.getElem_concat_length done p ((done.length : ℤ)).toNat htn
      (by simp [htn])
    rw [hg, Prod.mk.eta]

theorem gridInv_keep (done : List (ℝ × ℝ)) (st : GridState) (p : ℝ × ℝ)
    (fnd : Bool) (hdone : done ≠ []) (h : gridInv done st)
    (hle : st.minCost ≤ costOf p) :
    gridInv (done ++ [p])
      ⟨st.minCost, st.solutionTrajectory, st.solutionAttempt, st.optimalDv,
        st.optimalDh, st.attempt + 1, fnd⟩ := by
  obtain ⟨hatt, _, hcons⟩ := h
  obtain ⟨hmc0, hsa0, hsalt, hkept, hall, hearlier, hidx⟩ := hcons hdone
  refine ⟨?_, ?_, fun _ => ⟨?_, ?_, ?_, ?_, ?_, ?_, ?_⟩⟩
  · show st.attempt + 1 = (done ++ [p]).length
    simp [hatt]
  · exact fun hc => absurd hc (by simp)
  · exact hmc0
  · exact hsa0
  · show st.solutionAttempt < ((done ++ [p]).length : ℤ)
    simp only [List.length_append, List.length_singleton]
    push_cast
    omega
  · exact hkept
  · intro q hq
    show st.minCost ≤ costOf q
    rcases List.mem_append.mp hq with hq | hq
    · exact hall q hq
    · rcases List.mem_singleton.mp hq with rfl
      exact hle
  · intro j hj hjlt
    have hjlt2 : (j : ℤ) < st.solutionAttempt := hjlt
    have hjd : j < done.length := by omega
    show st.minCost < costOf ((done ++ [p]).get ⟨j, hj⟩)
    have hg : (done ++ [p]).get ⟨j, hj⟩ = done.get ⟨j, hjd⟩ := by
      rw [List.get_eq_getElem, List.get_eq_getElem]
      exact List.getElem_append_left hjd
    rw [hg]
    exact hearlier j hjd hjlt2
  · intro hsa
    have hsad : st.solutionAttempt.toNat < done.length := by omega
    show (done ++ [p]).get ⟨st.solutionAttempt.toNat, hsa⟩ =
      (st.optimalDv, st.optimalDh)
    have hg : (done ++ [p]).get ⟨st.solutionAttempt.toNat, hsa⟩ =
        done.get ⟨st.solutionAttempt.toNat, hsad⟩ := by
      rw [List.get_eq_getElem, List.get_eq_getElem]
      exact List.getElem_append_left hsad
    rw [hg]
    exact hidx hsad

theorem gridInv_update (done : List (ℝ × ℝ)) (st : GridState) (p : ℝ × ℝ)
    (h : gridInv done st) : gridInv (done ++ [p]) (gridUpdate st p) := by
  have hatt := h.1
  rw [gridUpdate, cost_flag_pair p st.found]
  by_cases hdone : done = []
  · have hst : st = gridInit := h.2.1 hdone
    subst hdone
    rw [hst]
    rw [if_pos (show gridInit.minCost = -1 from rfl)]
    exact gridInv_take [] p (some (mainSimulate p.1 p.2 gridInit.found).trajectory)
      (mainSimulate p.1 p.2 gridInit.found).found (by intro q hq; simp at hq)
  · obtain ⟨hmc0, _, _, _, hall, _, _⟩ := h.2.2 hdone
    have hne : ¬ st.minCost = -1 := fun hc => by rw [hc] at hmc0; linarith
    rw [if_neg hne]
    by_cases hlt : costOf p < st.minCost
    · rw [if_pos hlt, hatt]
      exact gridInv_take done p _ _
        (fun q hq => lt_of_lt_of_le hlt (hall q hq))
    · rw [if_neg hlt]
      exact gridInv_keep done st p _ hdone h (not_lt.mp hlt)

theorem gridInv_foldl : ∀ (l done : List (ℝ × ℝ)) (st : GridState),
    gridInv done st → gridInv (done ++ l) (l.foldl gridUpdate st) := by
  intro l
  induction l with
  | nil => intro done st h; simpa using h
  | cons p t ih =>
    intro done st h
    have h2 := gridInv_update done st p h
    have h3 := ih (done ++ [p]) (gridUpdate st p) h2
    simpa [List.append_assoc] using h3

theorem gridSearch_inv (vcs hcs : List ℝ) :
    gridInv (gridCells vcs hcs) (gridSearch vcs hcs) := by
  have := gridInv_foldl (gridCells vcs hcs) [] gridInit gridInv_init
  simpa [gridSearch] using this

/-! ## C3 -/

/-- C3: the grid search's kept cost is at most the cost of every grid
cell it evaluates, the kept coefficient pair attains this minimum, its
attempt index is in range, the cell at the kept index is the kept
coefficient pair, and every cell strictly before the kept one in the
row-major iteration order has strictly larger cost — that is, the
first combination among equal minima wins (strict-less-than test
against the running minimum). -/
theorem gridSearch_first_min (vcs hcs : List ℝ) (p : ℝ × ℝ)
    (hp : p ∈ gridCells vcs hcs) :
    (gridSearch vcs hcs).minCost ≤ costOf p ∧
    costOf ((gridSearch vcs hcs).optimalDv, (gridSearch vcs hcs).optimalDh) =
      (gridSearch vcs hcs).minCost ∧
    0 ≤ (gridSearch vcs hcs).solutionAttempt ∧
    (gridSearch vcs hcs).solutionAttempt < ((gridCells vcs hcs).length : ℤ) ∧
    (∀ hsa : (gridSearch vcs hcs).solutionAttempt.toNat < (gridCells vcs hcs).length,
      (gridCells vcs hcs).get ⟨(gridSearch vcs hcs).solutionAttempt.toNat, hsa⟩ =
        ((gridSearch vcs hcs).optimalDv, (gridSearch vcs hcs).optimalDh)) ∧
    (∀ j : ℕ, ∀ hj : j < (gridCells vcs hcs).length,
      (j : ℤ) < (gridSearch vcs hcs).solutionAttempt →
      (gridSearch vcs hcs).minCost < costOf ((gridCells vcs hcs).get ⟨j, hj⟩)) := by
  have hinv := gridSearch_inv vcs hcs
  have hne := List.ne_nil_of_mem hp
  obtain ⟨_, _, hcons⟩ := hinv
  obtain ⟨hmc0, hsa0, hsalt, hkept, hall, hearlier, hidx⟩ := hcons hne
  exact ⟨hall p hp, hkept, hsa0, hsalt, hidx, hearlier⟩

/-- C3 witness: the theorem applied to a one-cell grid. -/
theorem gridSearch_first_min_witness :
    ((1 : ℝ) / 2, (3 : ℝ) / 2) ∈ gridCells [(1 : ℝ) / 2] [(3 : ℝ) / 2] ∧
    (gridSearch [(1 : ℝ) / 2] [(3 : ℝ) / 2]).minCost ≤ costOf ((1 : ℝ) / 2, (3 : ℝ) / 2) := by
  have hp : ((1 : ℝ) / 2, (3 : ℝ) / 2) ∈ gridCells [(1 : ℝ) / 2] [(3 : ℝ) / 2] := by
    simp [gridCells]
  exact ⟨hp, (gridSearch_first_min [(1 : ℝ) / 2] [(3 : ℝ) / 2] _ hp).1⟩

/-! ## C4 -/

/-- C4: the landing cost of a non-empty trajectory equals
`final.time + 2 * |final.velocity|`, depends only on the final state,
is non-negative whenever `final.time ≥ 0`, and is monotone
non-decreasing in `|final.velocity|` at fixed `final.time` and in
`final.time` at fixed `|final.velocity|`. -/
theorem landing_cost_spec (t1 t2 : Trajectory) (s1 s2 : RocketState)
    (h1 : t1.states.getLast? = some s1) (h2 : t2.states.getLast? = some s2) :
    calculate_landing_cost t1 = s1.time + 2 * |s1.velocity| ∧
    (0 ≤ s1.time → 0 ≤ calculate_landing_cost t1) ∧
    (s1.time = s2.time → |s1.velocity| ≤ |s2.velocity| →
      calculate_landing_cost t1 ≤ calculate_landing_cost t2) ∧
    (|s1.velocity| = |s2.velocity| → s1.time ≤ s2.time →
      calculate_landing_cost t1 ≤ calculate_landing_cost t2) := by
  have e1 : calculate_landing_cost t1 = s1.time + 2 * |s1.velocity| := by
    rw [calculate_landing_cost, List.getLastD_eq_getLast?, h1]
    rfl
  have e2 : calculate_landing_cost t2 = s2.time + 2 * |s2.velocity| := by
    rw [calculate_landing_cost, List.getLastD_eq_getLast?, h2]
    rfl
  refine ⟨e1, ?_, ?_, ?_⟩
  · intro ht
    rw [e1]
    positivity
  · intro ht hv
    rw [e1, e2, ht]
    linarith
  · intro hv ht
    rw [e1, e2, hv]
    linarith

/-- C4 witness: the cost contract applied to two concrete one-state
trajectories. -/
theorem landing_cost_spec_witness :
    (Trajectory.mk [⟨100, -2, 3⟩]).states.getLast? = some ⟨100, -2, 3⟩ ∧
    (Trajectory.mk [⟨50, -4, 3⟩]).states.getLast? = some ⟨50, -4, 3⟩ ∧
    calculate_landing_cost (Trajectory.mk [⟨100, -2, 3⟩]) =
      (3 : ℝ) + 2 * |(-2 : ℝ)| ∧
    calculate_landing_cost (Trajectory.mk [⟨100, -2, 3⟩]) ≤
      calculate_landing_cost (Trajectory.mk [⟨50, -4, 3⟩]) := by
  have h1 : (Trajectory.mk [(⟨100, -2, 3⟩ : RocketState)]).states.getLast? =
      some ⟨100, -2, 3⟩ := rfl
  have h2 : (Trajectory.mk [(⟨50, -4, 3⟩ : RocketState)]).states.getLast? =
      some ⟨50, -4, 3⟩ := rfl
  have key := landing_cost_spec (Trajectory.mk [⟨100, -2, 3⟩])
    (Trajectory.mk [⟨50, -4, 3⟩]) ⟨100, -2, 3⟩ ⟨50, -4, 3⟩ h1 h2
  exact ⟨h1, h2, key.1, key.2.2.1 rfl (by norm_num)⟩

/-! ## Helper lemmas for the genetic algorithm -/

theorem choiceFn_ne_nil (l : List Individual) (k : ℕ) (h : l ≠ []) :
    (choiceFn l k).isSome := by
  rw [choiceFn]
  have hlen : k % l.length < l.length := Nat.mod_lt _ (List.length_pos.mpr h)
  simp [List.getElem?_eq_getElem hlen]

theorem choiceFn_nil (k : ℕ) : choiceFn [] k = none := by
  simp [choiceFn]

theorem reproduce_zero (rnd : GARand) (parents cur : List Individual) (k : ℕ) :
    reproduce rnd 0 parents cur k = some (cur, k) := rfl

theorem reproduce_succ (rnd : GARand) (n : ℕ) (parents cur : List Individual)
    (k : ℕ) :
    reproduce rnd (n + 1) parents cur k =
      (choiceFn parents (rnd.pick k).1).bind (fun father =>
        (choiceFn parents (rnd.pick k).2).bind (fun mother =>
          reproduce rnd n parents (cur ++ [gaChild rnd k father mother]) (k + 1))) := rfl

theorem reproduce_isSome (rnd : GARand) : ∀ (n : ℕ)
    (parents cur : List Individual) (k : ℕ), parents ≠ [] →
    (reproduce rnd n parents cur k).isSome := by
  intro n
  induction n with
  | zero => intro parents cur k _; rw [reproduce_zero]; rfl
  | succ m ih =>
    intro parents cur k hp
    rw [reproduce_succ]
    obtain ⟨father, hf⟩ := Option.isSome_iff_exists.mp (choiceFn_ne_nil parents _ hp)
    obtain ⟨mother, hm⟩ := Option.isSome_iff_exists.mp (choiceFn_ne_nil parents _ hp)
    rw [hf, hm, Option.some_bind, Option.some_bind]
    exact ih parents _ (k + 1) hp

theorem gaSorted_length (cfg : GAConfig) (pop : List Individual) :
    (gaSorted cfg pop).length = pop.length := by
  rw [gaSorted, List.length_mergeSort, gaEvaluations, List.length_map]

theorem gaSurvivors_length (cfg : GAConfig) (pop : List Individual) :
    (gaSurvivors cfg pop).length = pop.length / 2 := by
  rw [gaSurvivors, List.length_map, List.length_take, gaSorted_length]
  omega

theorem gaGeneration_isSome (cfg : GAConfig) (rnd : GARand) (popSize : ℕ)
    (s : GAState) (hpop : 2 ≤ s.population.length) :
    (gaGeneration cfg rnd popSize s).isSome := by
  rw [gaGeneration]
  have hs : gaSorted cfg s.population ≠ [] := by
    intro hc
    have := gaSorted_length cfg s.population
    rw [hc] at this
    simp at this
    omega
  obtain ⟨bg, hbg⟩ := Option.isSome_iff_exists.mp (List.head?_isSome.mpr hs)
  rw [hbg, Option.some_bind]
  have hsur : gaSurvivors cfg s.population ≠ [] := by
    intro hc
    have := gaSurvivors_length cfg s.population
    rw [hc] at this
    simp at this
    omega
  obtain ⟨r, hr⟩ := Option.isSome_iff_exists.mp
    (reproduce_isSome rnd _ _ _ s.k hsur)
  rw [hr]
  rfl

theorem gaRun_zero (cfg : GAConfig) (rnd : GARand) (popSize : ℕ) (s : GAState) :
    gaRun cfg rnd popSize 0 s = some s := rfl

theorem gaRun_succ (cfg : GAConfig) (rnd : GARand) (popSize g : ℕ) (s : GAState) :
    gaRun cfg rnd popSize (g + 1) s =
      (gaRun cfg rnd popSize g s).bind (gaGeneration cfg rnd popSize) := rfl

theorem gaGeneration_bestCost_le (cfg : GAConfig) (rnd : GARand) (popSize : ℕ)
    (s s2 : GAState) (h : gaGeneration cfg rnd popSize s = some s2) :
    s2.bestCost ≤ s.bestCost := by
  rw [gaGeneration] at h
  obtain ⟨bg, _, h2⟩ := Option.bind_eq_some.mp h
  obtain ⟨r, _, hs2⟩ := Option.map_eq_some'.mp h2
  rw [← hs2]
  show (if (bg.2.1 : WithTop ℝ) < s.bestCost then (bg.2.1 : WithTop ℝ)
    else s.bestCost) ≤ s.bestCost
  split
  · exact le_of_lt (by assumption)
  · exact le_refl _

/-! ## C8 -/

/-- C8: across successive generations the tracked globally best cost of
`genetic_algorithm` is monotone non-increasing: whenever the runs of
`g` and `g + 1` generations from the same start both complete, the best
cost after `g + 1` generations is at most the best cost after `g`
generations (the update uses a strict-less-than test, so it can only
lower the tracked best). -/
theorem ga_best_monotone (cfg : GAConfig) (rnd : GARand) (popSize g : ℕ)
    (s t t2 : GAState) (h1 : gaRun cfg rnd popSize g s = some t)
    (h2 : gaRun cfg rnd popSize (g + 1) s = some t2) :
    t2.bestCost ≤ t.bestCost := by
  rw [gaRun_succ, h1, Option.some_bind] at h2
  exact gaGeneration_bestCost_le cfg rnd popSize t t2 h2

/-- C8 witness: one generation from a concrete two-individual state
can only keep or lower the (initially infinite) best cost. -/
theorem ga_best_monotone_witness :
    (gaRun gaDemoConfig gaDemoRand 2 1 gaDemoState).isSome = true ∧
    ((gaRun gaDemoConfig gaDemoRand 2 1 gaDemoState).getD gaDemoState).bestCost ≤
      gaDemoState.bestCost := by
  have hpop : 2 ≤ gaDemoState.population.length := by
    norm_num [gaDemoState]
  have hrun : gaRun gaDemoConfig gaDemoRand 2 1 gaDemoState =
      gaGeneration gaDemoConfig gaDemoRand 2 gaDemoState := by
    rw [gaRun_succ, gaRun_zero, Option.some_bind]
  have hsome : (gaRun gaDemoConfig gaDemoRand 2 1 gaDemoState).isSome := by
    rw [hrun]
    exact gaGeneration_isSome gaDemoConfig gaDemoRand 2 gaDemoState hpop
  refine ⟨hsome, ?_⟩
  have h2 : gaRun gaDemoConfig gaDemoRand 2 1 gaDemoState =
      some ((gaRun gaDemoConfig gaDemoRand 2 1 gaDemoState).get hsome) :=
    (Option.some_get hsome).symm
  have key := ga_best_monotone gaDemoConfig gaDemoRand 2 0 gaDemoState gaDemoState
    ((gaRun gaDemoConfig gaDemoRand 2 1 gaDemoState).get hsome) rfl h2
  calc ((gaRun gaDemoConfig gaDemoRand 2 1 gaDemoState).getD gaDemoState).bestCost
      = ((gaRun gaDemoConfig gaDemoRand 2 1 gaDemoState).get hsome).bestCost := by
        conv_lhs => rw [h2]
        rw [Option.getD_some]
    _ ≤ gaDemoState.bestCost := key

/-! ## C10 -/

/-- With a population of exactly one individual a generation cannot be
completed: truncation selection keeps `1 // 2 = 0` survivors and
`random.choice` of the empty survivor list fails. -/
theorem gaGeneration_pop_one (cfg : GAConfig) (rnd : GARand) (popSize : ℕ)
    (s : GAState) (hpop : s.population.length = 1) (hps : 1 ≤ popSize) :
    gaGeneration cfg rnd popSize s = none := by
  rw [gaGeneration]
  have hsur : gaSurvivors cfg s.population = [] := by
    have hl := gaSurvivors_length cfg s.population
    rw [hpop] at hl
    exact List.eq_nil_of_length_eq_zero (by omega)
  cases hh : (gaSorted cfg s.population).head? with
  | none => rfl
  | some bg =>
    rw [Option.some_bind, hsur]
    obtain ⟨m, rfl⟩ : ∃ m, popSize = m + 1 := ⟨popSize - 1, by omega⟩
    have hrep : reproduce rnd (m + 1 - ([] : List Individual).length) [] [] s.k =
        none := by
      simp only [List.length_nil, Nat.sub_zero]
      rw [reproduce_succ, choiceFn_nil, Option.none_bind]
    rw [hrep]
    rfl

/-- C10: called with `initial_population = 1` and at least one
generation, `genetic_algorithm` never returns a result (modelled by
`none`): selection keeps `1 // 2 = 0` survivors and parent selection
from the empty survivor list raises instead of producing a best
trajectory and cost. -/
theorem genetic_algorithm_pop_one (cfg : GAConfig) (rnd : GARand) (g : ℕ)
    (hg : 1 ≤ g) : genetic_algorithm cfg rnd 1 g = none := by
  show (gaRun cfg rnd 1 g ⟨(List.range 1).map rnd.init, ⊤, none, 0⟩).map
    (fun s => (s.bestSolution, s.bestCost)) = none
  have hrun : ∀ n : ℕ, gaRun cfg rnd 1 (n + 1)
      ⟨(List.range 1).map rnd.init, ⊤, none, 0⟩ = none := by
    intro n
    induction n with
    | zero =>
      rw [gaRun_succ, gaRun_zero, Option.some_bind]
      exact gaGeneration_pop_one cfg rnd 1 _ (by simp) (le_refl 1)
    | succ m ih =>
      rw [gaRun_succ, ih, Option.none_bind]
  obtain ⟨n, rfl⟩ : ∃ n, g = n + 1 := ⟨g - 1, by omega⟩
  rw [hrun n]
  rfl

/-- C10 witness: the failure at the concrete scenario configuration
with one individual and one generation. -/
theorem genetic_algorithm_pop_one_witness :
    genetic_algorithm gaDemoConfig gaDemoRand 1 1 = none ∧ 1 ≤ 1 :=
  ⟨genetic_algorithm_pop_one gaDemoConfig gaDemoRand 1 (le_refl 1), le_refl 1⟩

/-! ## C5 -/

/-- C5: the overshoot guard is reachable with `velocity_error == 0`,
and the code has no defensive branch for it.  At the concrete input
`simulate_landing(100, 10, 1000, 20000, 0.5, 0.05, degenVc, 1.5)` the
first loop iteration runs (altitude `100 > 0`), selects zero thrust,
enters the overshoot guard (`v + a*dt > 0`), and there computes
`velocity_error / abs(velocity_error)` with `velocity_error = 0` — a
`0/0` with no special-case handling in the source. -/
theorem overshoot_guard_zero_divisor :
    (0 : ℝ) < degenState.altitude ∧
    stepThrust degenVc 1.5 (20000 / 1000) degenState = 0 ∧
    degenState.velocity + (stepThrust degenVc 1.5 (20000 / 1000) degenState +
      calculate_gravity degenState.altitude) * 0.05 > 0 ∧
    stepTargetVelocity degenVc degenState - degenState.velocity = 0 := by
  have hg_lt : calculate_gravity 100 < 0 := by norm_num [calculate_gravity]
  have hg_gt : (-2 : ℝ) < calculate_gravity 100 := by norm_num [calculate_gravity]
  have hA : (0 : ℝ) < (-(10 : ℝ)) ^ 2 + 2 * -(calculate_gravity 100) * 100 := by
    nlinarith
  have hsqrt : Real.sqrt ((-(10 : ℝ)) ^ 2 + 2 * -(calculate_gravity 100) * 100) ≠ 0 :=
    ne_of_gt (Real.sqrt_pos.mpr hA)
  have htarget : stepTargetVelocity degenVc degenState = 10 := by
    rw [stepTargetVelocity, degenVc]
    show -Real.sqrt ((-(10 : ℝ)) ^ 2 + 2 * -(calculate_gravity 100) * 100) *
      (-10 / Real.sqrt ((-(10 : ℝ)) ^ 2 + 2 * -(calculate_gravity 100) * 100)) = 10
    rw [neg_div, neg_mul_neg, mul_comm, div_mul_cancel₀ _ hsqrt]
  have hthrust : stepThrust degenVc 1.5 (20000 / 1000) degenState = 0 := by
    have h1 : ¬(degenState.altitude ≤
        stepRequiredDistance (20000 / 1000) degenState * 1.5) := by
      rw [stepRequiredDistance]
      show ¬((100 : ℝ) ≤ -(10 : ℝ) ^ 2 /
        (2 * (20000 / 1000 + calculate_gravity 100)) * 1.5)
      have hpos : (0 : ℝ) < 2 * (20000 / 1000 + calculate_gravity 100) := by
        linarith
      have hneg : -(10 : ℝ) ^ 2 / (2 * (20000 / 1000 + calculate_gravity 100)) < 0 :=
        div_neg_of_neg_of_pos (by norm_num) hpos
      nlinarith
    have h2 : ¬(degenState.velocity < stepTargetVelocity degenVc degenState) := by
      rw [htarget]
      show ¬((10 : ℝ) < 10)
      norm_num
    rw [stepThrust, if_neg h1, if_neg h2]
  refine ⟨by norm_num [degenState], hthrust, ?_, ?_⟩
  · rw [hthrust]
    show (10 : ℝ) + (0 + calculate_gravity 100) * 0.05 > 0
    linarith
  · rw [htarget]
    show (10 : ℝ) - 10 = 0
    norm_num

/-! ## C9 -/

/-- C9: the `tolerance` argument of `simulate_landing` has no effect on
the result: two runs differing only in the tolerance are identical. -/
theorem simulate_landing_tolerance_noninterference
    (h0 v0 m th t1 t2 dt vc hc : ℝ) (flag : Bool) (fuel : ℕ) :
    simulate_landing h0 v0 m th t1 dt vc hc flag fuel =
      simulate_landing h0 v0 m th t2 dt vc hc flag fuel := rfl

end

end RocketLanding
